import Mathlib

/-!
Verification of the HTTP server toolkit of this repository: the leveled logger,
the path splitters, the route-tree builder (`createRouteTreeMap`), the request
dispatcher (`router` / `fallback`), and the per-request session tracking of the
handler wrapper.  Each definition is a shallow embedding of the corresponding
JavaScript function; external behaviour that the code delegates to the host
(the regular-expression engine of `new RegExp` / `exec` / `test`, and
`decodeURIComponent`) is abstracted into an `Engine` record of oracles, except
for the one pattern the code itself constructs by default, `^(?<name>.+)$`,
whose matching behaviour is modelled concretely.
-/

namespace Srv

/-! ## Logger

The source defines `levels = { trace: 10, ..., fatal: 60 }` and
`logger.supports(level) = levels[LOG_LEVEL] <= levels[level]`.  Each generated
level method runs `if (this.supports(level)) this.write(level, ...)`, and
`write` emits exactly one line on stdout. -/

/-- Severity table, from the source's `levels` object. -/
def levels : List (String × Nat) :=
  [("trace", 10), ("debug", 20), ("info", 30), ("warn", 40), ("error", 50), ("fatal", 60)]

/-- Own-property lookup on a JavaScript object modelled as an association list;
a missing key is `undefined`, modelled as `none`. -/
def getProp {α : Type} : List (String × α) → String → Option α
  | [], _ => none
  | (k, v) :: rest, m => if k == m then some v else getProp rest m

/-- The six level names, in severity order. -/
def levelNames : List String := ["trace", "debug", "info", "warn", "error", "fatal"]

/-- Models `logger.supports`: `levels[LOG_LEVEL] <= levels[level]`.  In
JavaScript any `<=` comparison with `undefined` is false, hence the catch-all
`none` cases. -/
def supports (cfg lvl : String) : Bool :=
  match getProp levels cfg, getProp levels lvl with
  | some a, some b => a ≤ b
  | _, _ => false

/-- Number of stdout lines written by one logger call at level `lvl` with the
configured minimum `cfg`: the generated level method writes exactly one
rendered line when `supports` holds and nothing otherwise. -/
def logWrites (cfg lvl : String) : Nat := if supports cfg lvl then 1 else 0

/-- Severity number of a level name, defaulting to 0 for unknown names (used
only to state ordering facts about the six real names). -/
def sev (l : String) : Nat := (getProp levels l).getD 0

/-! ## Path splitters

Two nearly identical character folds appear in the source: the template
splitter in `createRouteTreeMap` (which does not split on a `/` whose
accumulated segment ends in a backslash) and the request-path splitter in
`router` (which splits on every `/`).  Both are JavaScript
`Array.from(str).reduce` calls pushing onto an array `acc`; when `acc` is
empty and a non-`/` character arrives, `acc[acc.length - 1] += char` writes to
the non-index property `-1` (starting from `undefined`, so the first such
write produces the string `"undefined" + char`); that property is later read
back by `acc[acc.length - 1]` while the array is still empty, but never
becomes an array element.  `SplitAcc.rev` holds the array elements most recent
first (the output reverses it), and `phantom` is the `-1` property. -/

structure SplitAcc where
  rev : List String
  phantom : Option String
  deriving Repr, DecidableEq

/-- The value of `acc[acc.length - 1]`: the last array element, or the
`-1` property when the array is empty. -/
def readLast (a : SplitAcc) : Option String :=
  match a.rev with
  | s :: _ => some s
  | [] => a.phantom

/-- `acc.push(s)`. -/
def pushSeg (a : SplitAcc) (s : String) : SplitAcc :=
  ⟨s :: a.rev, a.phantom⟩

/-- `acc[acc.length - 1] += char`: appends to the last element, or to the
phantom `-1` property (starting from `undefined`) when the array is empty. -/
def appendLast (a : SplitAcc) (c : Char) : SplitAcc :=
  match a.rev with
  | s :: rest => ⟨(s.push c) :: rest, a.phantom⟩
  | [] => ⟨[], some ((a.phantom.getD "undefined").push c)⟩

/-- Models `s.endsWith(t)` for a one-character `t`: the final character is `c`. -/
def jsEndsWithChar (s : String) (c : Char) : Bool :=
  match s.data.getLast? with
  | some d => d == c
  | none => false

/-- Does `acc[acc.length - 1]?.endsWith("\\")` hold (false on `undefined`)? -/
def endsBS (a : SplitAcc) : Bool :=
  match readLast a with
  | some s => jsEndsWithChar s '\\'
  | none => false

/-- Is `acc[acc.length - 1] === "/"`? -/
def lastIsSlash (a : SplitAcc) : Bool :=
  match readLast a with
  | some s => s == "/"
  | none => false

/-- One step of the request-path splitter in `router` (splits on every `/`). -/
def stepP (a : SplitAcc) (c : Char) : SplitAcc :=
  if c == '/' then pushSeg a "/"
  else if lastIsSlash a then pushSeg a (String.singleton c)
  else appendLast a c

/-- One step of the template splitter in `createRouteTreeMap` (an escaped
`\/` does not split). -/
def stepT (a : SplitAcc) (c : Char) : SplitAcc :=
  if c == '/' && !endsBS a then pushSeg a "/"
  else if lastIsSlash a then pushSeg a (String.singleton c)
  else appendLast a c

/-- The template splitter of `createRouteTreeMap`: segments of a route path
string, in order. -/
def splitTemplate (s : String) : List String :=
  (s.data.foldl stepT ⟨[], none⟩).rev.reverse

/-- The raw request-path splitter of `router` (before per-segment
percent-decoding). -/
def splitPath (s : String) : List String :=
  (s.data.foldl stepP ⟨[], none⟩).rev.reverse

/-- Does the character list contain a backslash immediately followed by a
slash? -/
def hasEscSlash : List Char → Bool
  | [] => false
  | [_] => false
  | a :: b :: rest => (a == '\\' && b == '/') || hasEscSlash (b :: rest)

/-! ### Splitter lemmas -/

theorem jsEndsWithChar_push (s : String) (c x : Char) :
    jsEndsWithChar (s.push c) x = (c == x) := by
  cases s with
  | mk data =>
      show jsEndsWithChar ⟨data ++ [c]⟩ x = (c == x)
      unfold jsEndsWithChar
      rw [show (String.mk (data ++ [c])).data = data ++ [c] from rfl,
        List.getLast?_concat]

theorem endsBS_push (a : SplitAcc) (s : String) :
    endsBS (pushSeg a s) = jsEndsWithChar s '\\' := rfl

theorem endsBS_appendLast (a : SplitAcc) (c : Char) :
    endsBS (appendLast a c) = (c == '\\') := by
  unfold appendLast
  cases hrev : a.rev with
  | cons s rest =>
      show endsBS ⟨s.push c :: rest, a.phantom⟩ = (c == '\\')
      unfold endsBS readLast
      simp [jsEndsWithChar_push]
  | nil =>
      show endsBS ⟨[], some ((a.phantom.getD "undefined").push c)⟩ = (c == '\\')
      unfold endsBS readLast
      simp [jsEndsWithChar_push]

theorem endsBS_stepP (a : SplitAcc) (c : Char) :
    endsBS (stepP a c) = (c == '\\') := by
  unfold stepP
  by_cases hc : (c == '/') = true
  · rw [if_pos hc, endsBS_push]
    have hc' : c = '/' := eq_of_beq hc
    subst hc'
    rfl
  · rw [if_neg hc]
    by_cases hl : lastIsSlash a = true
    · rw [if_pos hl, endsBS_push]
      rfl
    · rw [if_neg hl]
      exact endsBS_appendLast a c

theorem stepT_eq_stepP (a : SplitAcc) (c : Char)
    (h : endsBS a = false ∨ ¬ c = '/') : stepT a c = stepP a c := by
  unfold stepT stepP
  by_cases hc : (c == '/') = true
  · have hc' : c = '/' := eq_of_beq hc
    rcases h with h | h
    · rw [h]
      simp [hc]
    · exact absurd hc' h
  · simp [hc]

theorem hasEscSlash_tail {c : Char} {rest : List Char}
    (h : hasEscSlash (c :: rest) = false) : hasEscSlash rest = false := by
  cases rest with
  | nil => rfl
  | cons b t =>
      simp only [hasEscSlash] at h
      exact (Bool.or_eq_false_iff.mp h).2

theorem hasEscSlash_head {c : Char} {rest : List Char}
    (h : hasEscSlash (c :: rest) = false) (hc : c = '\\') :
    rest.head? ≠ some '/' := by
  cases rest with
  | nil => simp
  | cons b t =>
      intro hb
      have hb' : b = '/' := by simpa using hb
      subst hc hb'
      simp only [hasEscSlash] at h
      simp at h

theorem foldl_stepT_eq_stepP : ∀ (l : List Char) (a : SplitAcc),
    hasEscSlash l = false →
    (endsBS a = true → l.head? ≠ some '/') →
    l.foldl stepT a = l.foldl stepP a := by
  intro l
  induction l with
  | nil => intro a _ _; rfl
  | cons c rest ih =>
      intro a hesc hhead
      have hstep : stepT a c = stepP a c := by
        apply stepT_eq_stepP
        by_cases hEB : endsBS a = true
        · right
          intro hc
          exact hhead hEB (by simp [hc])
        · left
          exact eq_false_of_ne_true hEB
      rw [List.foldl_cons, List.foldl_cons, hstep]
      apply ih (stepP a c) (hasEscSlash_tail hesc)
      intro hEB'
      rw [endsBS_stepP] at hEB'
      exact hasEscSlash_head hesc (eq_of_beq hEB')

/-! ## Route tree data model

The source stores a route tree in nested `Map`s whose ordinary keys are child
edges (strings or `RegExp` objects) and whose `Symbol` keys `kHandlers`,
`kRouteOptions` and `kRouteKey` carry node attributes.  We model a node with
named fields: `entries` is the insertion-ordered list of real child edges, and
the three attribute fields correspond to the three sentinel keys.  The root of
a tree never receives `kRouteOptions`, and the dispatcher only ever reads the
options of a child node, so the root carries the dummy options
`⟨false, false⟩`. -/

/-- Match options stored under `kRouteOptions` on a child node. -/
structure MatchOptions where
  matchToEnd : Bool
  matchString : Bool
  deriving Repr, DecidableEq

/-- A compiled regular expression used as an edge key: either the fresh
`new RegExp("^(?<name>expr)$")` built for a templated segment (with `none`
for the default expression `.+`, taken when `splitSegment[1]` is absent or
empty), or a raw `RegExp` supplied by the user as a route key, identified by
its display string (the result of JavaScript string coercion, which also
determines its behaviour).  Distinct `RegExp` objects are distinct `Map`
keys regardless of source equality, so the builder never merges them. -/
inductive CompiledRe where
  | tmpl (name : String) (expr : Option String)
  | raw (src : String)
  deriving Repr, DecidableEq

/-- An edge key of the route tree: a string or a `RegExp`. -/
inductive RouteKey where
  | str (s : String)
  | re (r : CompiledRe)
  deriving Repr, DecidableEq

/-- A match record, as produced by a literal comparison (`[path]` with
`index = 0`, `input = matchPath`, `groups = undefined`) or by `exec` on an
anchored template regex (in which case the single named group spans the whole
subject).  Inner capture groups of a user-supplied expression are not
modelled. -/
structure MatchRec where
  matched : String
  groups : Option (List (String × String))
  input : String
  deriving Repr, DecidableEq

/-- A character the JavaScript `.` (no `s` flag) matches: anything but a line
terminator. -/
def jsDot (c : Char) : Bool :=
  !(c == '\n' || c == '\r' || c == '\u2028' || c == '\u2029')

/-- Oracles for the behaviour the source delegates to the host runtime. -/
structure Engine where
  compiles : String → Bool
  fullMatch : String → String → Bool
  rawTestEmpty : String → Bool
  rawExec : String → String → Option MatchRec
  decode : String → String

/-- A pattern key of a route-definition `Map`: a path-template string or a
raw `RegExp` (by display string). -/
inductive RoutePattern where
  | str (s : String)
  | regex (src : String)
  deriving Repr, DecidableEq

/-- A route-definition value: a handler set (method name or `*` mapped to a
handler) or a nested route definition, the two runtime shapes the source
distinguishes with `value instanceof Map`. -/
inductive RouteVal (H : Type) where
  | handlers (hs : List (String × H))
  | nested (m : List (RoutePattern × RouteVal H))

/-- A node of the built route tree. -/
inductive Node (H : Type) where
  | mk (entries : List (RouteKey × Node H)) (handlers : Option (RouteVal H))
      (routeKey : Option String) (options : MatchOptions)

def Node.entries {H : Type} : Node H → List (RouteKey × Node H)
  | .mk e _ _ _ => e

def Node.handlers {H : Type} : Node H → Option (RouteVal H)
  | .mk _ h _ _ => h

def Node.routeKey {H : Type} : Node H → Option String
  | .mk _ _ k _ => k

def Node.options {H : Type} : Node H → MatchOptions
  | .mk _ _ _ o => o

def Node.setHandlers {H : Type} : Node H → Option (RouteVal H) → Node H
  | .mk e _ k o, h => .mk e h k o

def Node.setRouteKey {H : Type} : Node H → Option String → Node H
  | .mk e h _ o, k => .mk e h k o

def Node.setEntries {H : Type} : Node H → List (RouteKey × Node H) → Node H
  | .mk _ h k o, e => .mk e h k o

def Node.setOptions {H : Type} : Node H → MatchOptions → Node H
  | .mk e h k _, o => .mk e h k o

/-- An empty node (a fresh `new Map()` with no attributes set); the options
field is the never-read root dummy. -/
def emptyNode {H : Type} : Node H := .mk [] none none ⟨false, false⟩

/-! ## Route tree builder (`createRouteTreeMap`)

The builder makes a first pass over the definition handling `RegExp` keys and
collecting string keys into `stringPaths` (a `Map`, so a duplicate string key
replaces the value but keeps its position), then a second pass inserting each
string path segment by segment.  Nested route definitions are built
recursively with the child's route key as prefix (`routeKeyPrefix + path` for
string entries, the coerced `RegExp` display string alone for regex entries)
and spliced into the current node entry by entry.  `precompileEntries` runs
those recursive builds up front; `PreVal.subtree` keeps the original nested
definition (which the empty-matching-regex branch stores raw under
`kHandlers`), the built subtree, and the warnings its build produced. -/

/-- A route-definition value with nested definitions already built. -/
inductive PreVal (H : Type) where
  | handlers (hs : List (String × H))
  | subtree (orig : List (RoutePattern × RouteVal H)) (built : Node H)
      (ws : List String)

/-- The value stored under `kHandlers`: the original route-definition value. -/
def PreVal.orig {H : Type} : PreVal H → RouteVal H
  | .handlers hs => RouteVal.handlers hs
  | .subtree o _ _ => RouteVal.nested o

/-- `Map.prototype.set` on a string-keyed map modelled as a list: replacing a
present key keeps its position, a new key is appended. -/
def mapSet {H : Type} (m : List (String × PreVal H)) (k : String) (v : PreVal H) :
    List (String × PreVal H) :=
  if m.any (fun e => e.1 == k) then
    m.map (fun e => if e.1 == k then (e.1, v) else e)
  else m ++ [(k, v)]

/-- `Map.prototype.set` on a node's edge list.  String keys compare by value;
`RegExp` keys compare by object identity, and every `RegExp` edge the builder
inserts is a freshly created object (or comes from a just-built subtree), so
it is never an existing key and is always appended. -/
def edgeSet {H : Type} (entries : List (RouteKey × Node H)) (k : RouteKey)
    (v : Node H) : List (RouteKey × Node H) :=
  match k with
  | .str s =>
      if entries.any (fun e => e.1 == RouteKey.str s) then
        entries.map (fun e => if e.1 == RouteKey.str s then (e.1, v) else e)
      else entries ++ [(k, v)]
  | .re _ => entries ++ [(k, v)]

/-- Splicing a just-built subtree into a node:
`for (const [k, v] of child.entries()) node.set(k, v)`.  Copying the child's
edges follows `Map.set` semantics; a present `kHandlers`/`kRouteKey` in the
child overwrites the node's, an absent one leaves it alone.  A built subtree
root never carries `kRouteOptions`, so the node's options are untouched. -/
def spliceNode {H : Type} (node child : Node H) : Node H :=
  Node.mk (child.entries.foldl (fun acc kv => edgeSet acc kv.1 kv.2) node.entries)
    (match child.handlers with | some x => some x | none => node.handlers)
    (match child.routeKey with | some x => some x | none => node.routeKey)
    node.options

/-- The child node built for a non-empty-matching raw `RegExp` route key:
a fresh map given `matchToEnd = true, matchString = false` and the route key
`routeKeyPrefix + path` (the `RegExp` coerced to its display string), then
either the handler value attached or the built nested subtree spliced in.
Also returns the warnings of the nested build. -/
def rawChild {H : Type} (pre src : String) (pv : PreVal H) : Node H × List String :=
  match pv with
  | .handlers hs =>
      (Node.mk [] (some (RouteVal.handlers hs)) (some (pre ++ src)) ⟨true, false⟩, [])
  | .subtree _ built ws =>
      (spliceNode (Node.mk [] none (some (pre ++ src)) ⟨true, false⟩) built, ws)

/-- First pass of `createRouteTreeMap`: handle `RegExp` keys (an empty-string
match attaches the value under `kHandlers` directly; anything else becomes a
fresh child edge) and collect string keys, in order, into `stringPaths`. -/
def regexPhase {H : Type} (eng : Engine) (pre : String) :
    List (RoutePattern × PreVal H) → Node H → List (String × PreVal H) →
    List String → Node H × List (String × PreVal H) × List String
  | [], node, strs, warns => (node, strs, warns)
  | (RoutePattern.str s, pv) :: rest, node, strs, warns =>
      regexPhase eng pre rest node (mapSet strs s pv) warns
  | (RoutePattern.regex src, pv) :: rest, node, strs, warns =>
      if eng.rawTestEmpty src then
        regexPhase eng pre rest (node.setHandlers (some pv.orig)) strs warns
      else
        match rawChild pre src pv with
        | (child, ws) =>
            regexPhase eng pre rest
              (node.setEntries
                (node.entries ++ [(RouteKey.re (CompiledRe.raw src), child)]))
              strs (warns ++ ws)

/-- Splits a character list at every occurrence of `c` (used for the
JavaScript `adjustedSegment.split(":", 2)`: elements 0 and 1 of the
limit-2 split coincide with elements 0 and 1 of the full split). -/
def splitChars (c : Char) : List Char → List (List Char)
  | [] => [[]]
  | ch :: rest =>
      let r := splitChars c rest
      if ch == c then [] :: r
      else
        match r with
        | s :: tail => (ch :: s) :: tail
        | [] => [[ch]]

/-- `s.replace("*", "")`: removes the first `*` only. -/
def removeFirstStar : List Char → List Char
  | [] => []
  | c :: rest => if c == '*' then rest else c :: removeFirstStar rest

/-- Is the segment a `{...}` template (`startsWith("{") && endsWith("}")`)? -/
def segIsTemplate (seg : String) : Bool :=
  (match seg.data.head? with | some c => c == '\x7b' | none => false) &&
  (match seg.data.getLast? with | some c => c == '\x7d' | none => false)

/-- The pieces the builder extracts from a `{...}` segment: variable name
(first `*` removed, defaulting to `segment` when empty), optional constraint
expression (absent or empty falls back to the default `.+`), the splat flag,
and the full anchored pattern source handed to `new RegExp`. -/
structure TemplateParts where
  name : String
  expr : Option String
  hasSplat : Bool
  pattern : String
  deriving Repr, DecidableEq

def parseTemplate (seg : String) : TemplateParts :=
  let adjusted := (seg.data.drop 1).dropLast
  let parts := splitChars ':' adjusted
  let part0 := parts.headD []
  let hasSplat := match part0.getLast? with | some c => c == '*' | none => false
  let name0 := String.mk (removeFirstStar part0)
  let name := if name0 == "" then "segment" else name0
  let expr : Option String :=
    match parts.get? 1 with
    | some [] => none
    | some e => some (String.mk e)
    | none => none
  { name := name, expr := expr, hasSplat := hasSplat,
    pattern := "^(?<" ++ name ++ ">" ++ (match expr with | some e => e | none => ".+") ++ ")$" }

/-- Find the child node of an existing string edge. -/
def findStrEdge {H : Type} (entries : List (RouteKey × Node H)) (seg : String) :
    Option (Node H) :=
  match entries with
  | [] => none
  | (RouteKey.str s, v) :: rest =>
      if s == seg then some v else findStrEdge rest seg
  | _ :: rest => findStrEdge rest seg

/-- Replace the child of an existing string edge, keeping its position. -/
def replaceStrEdge {H : Type} (entries : List (RouteKey × Node H)) (seg : String)
    (v : Node H) : List (RouteKey × Node H) :=
  match entries with
  | [] => []
  | (RouteKey.str s, w) :: rest =>
      if s == seg then (RouteKey.str s, v) :: rest
      else (RouteKey.str s, w) :: replaceStrEdge rest seg v
  | e :: rest => e :: replaceStrEdge rest seg v

/-- The per-string-path segment loop of `createRouteTreeMap`, plus the final
attachment.  For a `{...}` segment whose derived pattern compiles, a fresh
regex edge is appended (a new `RegExp` is never an existing `Map` key) and the
descent continues inside it; when `new RegExp` throws, the builder logs one
warning and `continue`s with the NEXT SEGMENT of the same route entry.  For a
literal segment an existing string edge is reused (its `kRouteOptions` being
overwritten) or a fresh one appended.  When the segments are exhausted,
`kRouteKey` is set to `routeKeyPrefix + path` and then the handler value is
attached (or the built nested subtree spliced in, which may overwrite
`kRouteKey` and `kHandlers`). -/
def insertSegs {H : Type} (eng : Engine) (pre path : String) (pv : PreVal H) :
    Node H → List String → List String → Node H × List String
  | node, [], warns =>
      let rk := pre ++ path
      match pv with
      | .handlers hs =>
          (Node.mk node.entries (some (RouteVal.handlers hs)) (some rk) node.options,
            warns)
      | .subtree _ built ws =>
          (spliceNode (node.setRouteKey (some rk)) built, warns ++ ws)
  | node, seg :: rest, warns =>
      if segIsTemplate seg then
        match parseTemplate seg with
        | ⟨name, expr, hasSplat, pattern⟩ =>
          if eng.compiles pattern then
            match insertSegs eng pre path pv
                (Node.mk [] none none ⟨hasSplat, false⟩) rest warns with
            | (below, w) =>
                (node.setEntries
                  (node.entries ++ [(RouteKey.re (CompiledRe.tmpl name expr), below)]),
                  w)
          else
            insertSegs eng pre path pv node rest (warns ++ [path])
      else
        match findStrEdge node.entries seg with
        | some child =>
            match insertSegs eng pre path pv (child.setOptions ⟨false, true⟩)
                rest warns with
            | (below, w) =>
                (node.setEntries (replaceStrEdge node.entries seg below), w)
        | none =>
            match insertSegs eng pre path pv (Node.mk [] none none ⟨false, true⟩)
                rest warns with
            | (below, w) =>
                (node.setEntries (node.entries ++ [(RouteKey.str seg, below)]), w)

/-- Second pass of `createRouteTreeMap`: insert each collected string path. -/
def stringPhase {H : Type} (eng : Engine) (pre : String) :
    List (String × PreVal H) → Node H → List String → Node H × List String
  | [], node, warns => (node, warns)
  | (path, pv) :: rest, node, warns =>
      match insertSegs eng pre path pv node (splitTemplate path) warns with
      | (n, w) => stringPhase eng pre rest n w

/-- The two passes of `createRouteTreeMap` over a precompiled definition. -/
def buildCore {H : Type} (eng : Engine) (pm : List (RoutePattern × PreVal H))
    (pre : String) : Node H × List String :=
  match regexPhase eng pre pm emptyNode [] [] with
  | (n, strs, warns) => stringPhase eng pre strs n warns

/-- The prefix a nested definition is built with: `routeKeyPrefix + path` for
a string entry (the `routeKey` of line 515), the coerced display string alone
for a `RegExp` entry (line 448 passes `path` itself). -/
def childPre (p : RoutePattern) (pre : String) : String :=
  match p with
  | .str s => pre ++ s
  | .regex src => src

mutual

/-- Builds the subtrees of all nested route definitions up front (they are
pure computations, so doing them before the two passes is equivalent). -/
def precompileEntries {H : Type} (eng : Engine) :
    List (RoutePattern × RouteVal H) → String → List (RoutePattern × PreVal H)
  | [], _ => []
  | (p, v) :: rest, pre =>
      (p,
        match v with
        | RouteVal.handlers hs => PreVal.handlers hs
        | RouteVal.nested m =>
            match createRouteTreeMap eng m (childPre p pre) with
            | (built, ws) => PreVal.subtree m built ws) :: precompileEntries eng rest pre
termination_by l _ => 2 * sizeOf l

/-- The route-tree builder, returning the tree and the list of warning logs
(one entry per `Invalid path syntax` warning, holding the offending path). -/
def createRouteTreeMap {H : Type} (eng : Engine)
    (routeMap : List (RoutePattern × RouteVal H)) (pre : String) :
    Node H × List String :=
  buildCore eng (precompileEntries eng routeMap pre) pre
termination_by 2 * sizeOf routeMap + 1

end

/-! ## Dispatcher (`router`)

The dispatcher splits the request path, percent-decodes each raw segment, and
walks the tree: for each segment, the current node's child edges are scanned
in insertion order; the match subject is the rejoined remainder of the path
for a `matchToEnd` edge and the current segment otherwise; a `matchString`
edge compares by `===` (false against a `RegExp` key), any other edge runs
`exec`.  The first match is recorded and descended into, setting `fullMatch`
on a `matchToEnd` edge; if after a segment the walk is not `fullMatch` and
fewer matches than segments have been recorded, the whole state is discarded
and the loop `break`s. -/

/-- The mutable `state` of `router` (the `startTime` field only feeds the
request log line and is omitted; `matchList` is the source's
`state.matches`). -/
structure WalkState (H : Type) where
  routes : Node H
  handlers : Option (RouteVal H)
  routeKey : Option String
  matchList : List MatchRec
  fullMatch : Bool

/-- Running an edge key's `exec` on a subject.  A string key has no `exec`
method; that case cannot arise in a built tree (`matchString` is true exactly
on string edges), so it is mapped to no match.  For the fresh anchored
template pattern `^(?<name>E)$` a successful match spans the whole subject and
the named group captures all of it; the default `E = .+` (one or more of any
non-line-terminator) matches exactly the non-empty subjects free of line
terminators, a user-supplied `E` is consulted through the engine oracle. -/
def execKey (eng : Engine) (k : RouteKey) (subject : String) :
    Option MatchRec :=
  match k with
  | .str _ => none
  | .re (CompiledRe.tmpl name expr) =>
      let ok := match expr with
        | none => !(subject == "") && subject.data.all jsDot
        | some e => eng.fullMatch e subject
      if ok then some ⟨subject, some [(name, subject)], subject⟩ else none
  | .re (CompiledRe.raw src) => eng.rawExec src subject

/-- The inner loop of `router`: scan the child edges in insertion order and
return the first match, with its key, match record and child node.  The
sentinel attribute keys are not edges here, so no skip is needed. -/
def tryChildren {H : Type} (eng : Engine) :
    List (RouteKey × Node H) → String → String →
    Option (RouteKey × MatchRec × Node H)
  | [], _, _ => none
  | (k, v) :: rest, seg, remainder =>
      let subject := if v.options.matchToEnd then remainder else seg
      let res :=
        if v.options.matchString then
          match k with
          | RouteKey.str s => if subject == s then some (⟨s, none, subject⟩ : MatchRec) else none
          | RouteKey.re _ => none
        else execKey eng k subject
      match res with
      | some m => some (k, m, v)
      | none => tryChildren eng rest seg remainder

/-- The outer loop of `router` over the indexed segments.  `root` is the
`routes` argument the discarded state resets to. -/
def walk {H : Type} (eng : Engine) (root : Node H) :
    WalkState H → Nat → List String → WalkState H
  | st, _, [] => st
  | st, i, seg :: rest =>
      let st' :=
        match tryChildren eng st.routes.entries seg (String.join (seg :: rest)) with
        | some (_, m, v) =>
            { st with fullMatch := st.fullMatch || v.options.matchToEnd,
                      matchList := st.matchList ++ [m],
                      routes := v,
                      routeKey := v.routeKey,
                      handlers := v.handlers }
        | none => st
      if !st'.fullMatch && decide (st'.matchList.length < i + 1) then
        { st' with matchList := [], routes := root, routeKey := some "",
                   handlers := none }
      else walk eng root st' (i + 1) rest

/-- Models `method.toLowerCase()` for the ASCII method names. -/
def jsToLower (s : String) : String := String.mk (s.data.map Char.toLower)

/-- Method lookup on the value stored under `kHandlers`: own-property access
on a handler set; a nested definition stored there (a `Map` object) has no own
method properties.  (JavaScript property access could additionally surface
`Map.prototype` methods on such an object; that prototype-chain corner is not
modelled.) -/
def lookupMethod {H : Type} (hv : RouteVal H) (m : String) : Option H :=
  match hv with
  | RouteVal.handlers hs => getProp hs m
  | RouteVal.nested _ => none

/-- The handler `router` selects:
`state.handlers?.[method.toLowerCase()] || state.handlers?.["*"] ||
fallback(state.handlers)` (handler values are JavaScript functions, hence
truthy). -/
inductive Selected (H : Type) where
  | user (h : H)
  | fallback (reached : Option (RouteVal H))

def selectHandler {H : Type} (handlers : Option (RouteVal H)) (method : String) :
    Selected H :=
  match handlers.bind (fun hv => lookupMethod hv (jsToLower method)) with
  | some h => Selected.user h
  | none =>
      match handlers.bind (fun hv => lookupMethod hv "*") with
      | some h => Selected.user h
      | none => Selected.fallback handlers

/-- A response sink: status code and the body passed to `end`. -/
structure Response where
  statusCode : Nat
  body : String
  deriving Repr, DecidableEq

/-- A response before the handler touches it (`statusCode` defaults to 200,
nothing written). -/
def freshResponse : Response := ⟨200, ""⟩

/-- The `fallback` closure of the source: 404 `Not found.` when no handler
set was reached, 406 `Method not allowed.` when one was reached but carried
neither the method nor `*`. -/
def fallbackRespond {H : Type} (reached : Option (RouteVal H)) (r : Response) :
    Response :=
  match reached with
  | none => { r with statusCode := 404, body := "Not found." }
  | some _ => { r with statusCode := 406, body := "Method not allowed." }

/-- What `router` returns, as observable data: the route key and handler
(through `handlerWrap`, which passes `state.matches` and calls the selected
`inner`). -/
structure DispatchResult (H : Type) where
  routeKey : Option String
  matchList : List MatchRec
  handlers : Option (RouteVal H)
  selected : Selected H

/-- The routing computation of `router`:  split the pathname, percent-decode
each raw segment, walk the tree from the initial state, then select the
handler. -/
def dispatch {H : Type} (eng : Engine) (root : Node H) (method pathname : String) :
    DispatchResult H :=
  let segments := (splitPath pathname).map eng.decode
  let fin := walk eng root ⟨root, none, some "", [], false⟩ 0 segments
  ⟨fin.routeKey, fin.matchList, fin.handlers, selectHandler fin.handlers method⟩

/-! ## Session tracking in the handler wrapper

`handlerWrap` is invoked per request; before calling the selected handler it
registers the transport session in `activeSessions`: for an HTTP/2 request the
stream's session, and on an `http2`-protocol server an HTTP/1.1 keep-alive
connection's socket; a `close` listener removing the entry is installed on
first registration.  Sessions and sockets are identified by numbers here. -/

structure ReqInfo where
  httpVersion : String
  session : Nat
  socket : Nat
  connectionHeader : String

/-- The mutation `handlerWrap` applies to the active-session set when it is
invoked for a request. -/
def trackSession (protocol : String) (req : ReqInfo) (active : List Nat) :
    List Nat :=
  if req.httpVersion == "2.0" then
    if active.contains req.session then active else active ++ [req.session]
  else if protocol == "http2" then
    if jsToLower req.connectionHeader == "keep-alive" then
      if active.contains req.socket then active else active ++ [req.socket]
    else active
  else active

/-- The `close` listener: `activeSessions.delete(session)`. -/
def sessionClosed (active : List Nat) (s : Nat) : List Nat :=
  active.filter (fun x => x ≠ s)

/-- One request at the server boundary: `router` itself performs no operation
on `activeSessions` (it only captures the reference), and invoking the
returned `handlerWrap` applies `trackSession` before running the selected
handler. -/
def handleRequest {H : Type} (eng : Engine) (root : Node H) (protocol : String)
    (req : ReqInfo) (method pathname : String) (active : List Nat) :
    DispatchResult H × List Nat :=
  (dispatch eng root method pathname, trackSession protocol req active)

/-! ## Concrete instances used by the claims -/

/-- An engine on which every pattern compiles, no raw regex matches anything,
and decoding is the identity (the inputs below contain no percent escapes). -/
def engAll : Engine :=
  { compiles := fun _ => true, fullMatch := fun _ _ => false,
    rawTestEmpty := fun _ => false, rawExec := fun _ _ => none, decode := id }

/-- Evaluating `precompileEntries` on the empty definition. -/
theorem precompile_nil {H : Type} (eng : Engine) (pre : String) :
    precompileEntries eng ([] : List (RoutePattern × RouteVal H)) pre = [] := by
  simp only [precompileEntries]

/-- Evaluating `precompileEntries` on a handler-set entry (no nested build to
run). -/
theorem precompile_cons_handlers {H : Type} (eng : Engine) (p : RoutePattern)
    (hs : List (String × H)) (rest : List (RoutePattern × RouteVal H))
    (pre : String) :
    precompileEntries eng ((p, RouteVal.handlers hs) :: rest) pre =
      (p, PreVal.handlers hs) :: precompileEntries eng rest pre := by
  simp only [precompileEntries]

/-- The sibling routes `/a/{x}` and `/a/b/c`, in that insertion order. -/
def sibRoutesA : List (RoutePattern × RouteVal Nat) :=
  [(RoutePattern.str "/a/\x7bx\x7d", RouteVal.handlers [("get", 1)]),
   (RoutePattern.str "/a/b/c", RouteVal.handlers [("get", 2)])]

/-- The same sibling routes in the opposite insertion order. -/
def sibRoutesB : List (RoutePattern × RouteVal Nat) :=
  [(RoutePattern.str "/a/b/c", RouteVal.handlers [("get", 2)]),
   (RoutePattern.str "/a/\x7bx\x7d", RouteVal.handlers [("get", 1)])]

/-- The tree the builder produces from `sibRoutesA` (shown built by
`sibTreeA_built`). -/
def sibTreeA : Node Nat :=
  Node.mk
    [(RouteKey.str "/", Node.mk
      [(RouteKey.str "a", Node.mk
        [(RouteKey.str "/", Node.mk
          [(RouteKey.re (CompiledRe.tmpl "x" none),
              Node.mk [] (some (RouteVal.handlers [("get", 1)]))
                (some "/a/\x7bx\x7d") ⟨false, false⟩),
           (RouteKey.str "b", Node.mk
             [(RouteKey.str "/", Node.mk
               [(RouteKey.str "c",
                  Node.mk [] (some (RouteVal.handlers [("get", 2)]))
                    (some "/a/b/c") ⟨false, true⟩)]
               none none ⟨false, true⟩)]
             none none ⟨false, true⟩)]
          none none ⟨false, true⟩)]
        none none ⟨false, true⟩)]
      none none ⟨false, true⟩)]
    none none ⟨false, false⟩

/-- The tree the builder produces from `sibRoutesB` (shown built by
`sibTreeB_built`): same nodes, the `{x}` edge now after the `b` edge. -/
def sibTreeB : Node Nat :=
  Node.mk
    [(RouteKey.str "/", Node.mk
      [(RouteKey.str "a", Node.mk
        [(RouteKey.str "/", Node.mk
          [(RouteKey.str "b", Node.mk
             [(RouteKey.str "/", Node.mk
               [(RouteKey.str "c",
                  Node.mk [] (some (RouteVal.handlers [("get", 2)]))
                    (some "/a/b/c") ⟨false, true⟩)]
               none none ⟨false, true⟩)]
             none none ⟨false, true⟩),
           (RouteKey.re (CompiledRe.tmpl "x" none),
              Node.mk [] (some (RouteVal.handlers [("get", 1)]))
                (some "/a/\x7bx\x7d") ⟨false, false⟩)]
          none none ⟨false, true⟩)]
        none none ⟨false, true⟩)]
      none none ⟨false, true⟩)]
    none none ⟨false, false⟩

theorem sibTreeA_built :
    createRouteTreeMap engAll sibRoutesA "" = (sibTreeA, []) := by
  simp only [sibRoutesA, createRouteTreeMap, precompile_cons_handlers,
    precompile_nil]
  rfl

theorem sibTreeB_built :
    createRouteTreeMap engAll sibRoutesB "" = (sibTreeB, []) := by
  simp only [sibRoutesB, createRouteTreeMap, precompile_cons_handlers,
    precompile_nil]
  rfl

/-- The single route `/a/{x*}/b`: a splat segment with segments after it. -/
def splatRoutes : List (RoutePattern × RouteVal Nat) :=
  [(RoutePattern.str "/a/\x7bx*\x7d/b", RouteVal.handlers [("get", 7)])]

/-- The tree the builder produces from `splatRoutes` (shown built by
`splatTree_built`): the splat edge carries `matchToEnd` and has child edges
below it. -/
def splatTree : Node Nat :=
  Node.mk
    [(RouteKey.str "/", Node.mk
      [(RouteKey.str "a", Node.mk
        [(RouteKey.str "/", Node.mk
          [(RouteKey.re (CompiledRe.tmpl "x" none), Node.mk
            [(RouteKey.str "/", Node.mk
              [(RouteKey.str "b",
                 Node.mk [] (some (RouteVal.handlers [("get", 7)]))
                   (some "/a/\x7bx*\x7d/b") ⟨false, true⟩)]
              none none ⟨false, true⟩)]
            none none ⟨true, false⟩)]
          none none ⟨false, true⟩)]
        none none ⟨false, true⟩)]
      none none ⟨false, true⟩)]
    none none ⟨false, false⟩

theorem splatTree_built :
    createRouteTreeMap engAll splatRoutes "" = (splatTree, []) := by
  simp only [splatRoutes, createRouteTreeMap, precompile_cons_handlers,
    precompile_nil]
  rfl

/-- An engine on which the pattern derived from `{bad:[}` — and only it —
fails to compile, as `new RegExp("^(?<bad>[)$")` does. -/
def c4Eng : Engine :=
  { compiles := fun p => !(p == "^(?<bad>[)$"), fullMatch := fun _ _ => false,
    rawTestEmpty := fun _ => false, rawExec := fun _ _ => none, decode := id }

/-- A route definition with one route whose third segment has an invalid
constraint expression. -/
def c4Routes : List (RoutePattern × RouteVal Nat) :=
  [(RoutePattern.str "/a/\x7bbad:[\x7d", RouteVal.handlers [("get", 5)])]

/-- The tree the builder produces from `c4Routes` (shown built, with its one
warning, by `c4Tree_built`): the literal prefix edges survive and the handler
set sits at the `/a/` node. -/
def c4Tree : Node Nat :=
  Node.mk
    [(RouteKey.str "/", Node.mk
      [(RouteKey.str "a", Node.mk
        [(RouteKey.str "/",
           Node.mk [] (some (RouteVal.handlers [("get", 5)]))
             (some "/a/\x7bbad:[\x7d") ⟨false, true⟩)]
        none none ⟨false, true⟩)]
      none none ⟨false, true⟩)]
    none none ⟨false, false⟩

theorem c4Tree_built :
    createRouteTreeMap c4Eng c4Routes "" = (c4Tree, ["/a/\x7bbad:[\x7d"]) := by
  simp only [c4Routes, createRouteTreeMap, precompile_cons_handlers,
    precompile_nil]
  rfl

/-- An engine whose decoder maps the raw segment `a%0Ab` to `a` + newline +
`b`, as `decodeURIComponent` does. -/
def eng6 : Engine :=
  { compiles := fun _ => true, fullMatch := fun _ _ => false,
    rawTestEmpty := fun _ => false, rawExec := fun _ _ => none,
    decode := fun s => if s == "a%0Ab" then "a\nb" else s }

/-- The single route `/x/{name}`. -/
def nameRoutes : List (RoutePattern × RouteVal Nat) :=
  [(RoutePattern.str "/x/\x7bname\x7d", RouteVal.handlers [("get", 3)])]

/-- The tree the builder produces from `nameRoutes` (shown built by
`nameTree_built`). -/
def nameTree : Node Nat :=
  Node.mk
    [(RouteKey.str "/", Node.mk
      [(RouteKey.str "x", Node.mk
        [(RouteKey.str "/", Node.mk
          [(RouteKey.re (CompiledRe.tmpl "name" none),
             Node.mk [] (some (RouteVal.handlers [("get", 3)]))
               (some "/x/\x7bname\x7d") ⟨false, false⟩)]
          none none ⟨false, true⟩)]
        none none ⟨false, true⟩)]
      none none ⟨false, true⟩)]
    none none ⟨false, false⟩

theorem nameTree_built :
    createRouteTreeMap eng6 nameRoutes "" = (nameTree, []) := by
  simp only [nameRoutes, createRouteTreeMap, precompile_cons_handlers,
    precompile_nil]
  rfl

/-- An engine on which every raw regex matches the empty string. -/
def engEmptyRe : Engine :=
  { compiles := fun _ => true, fullMatch := fun _ _ => false,
    rawTestEmpty := fun _ => true, rawExec := fun _ _ => none, decode := id }

/-- Is the route-definition pattern a `RegExp` key? -/
def isReP : RoutePattern → Bool
  | RoutePattern.regex _ => true
  | RoutePattern.str _ => false

/-! ## Claims about the logger -/

/-- Claim C8: with a configured minimum level that is one of the six level
names, a logger call at a level of strictly lower severity writes nothing and
a call at a level of severity at or above the minimum writes exactly one
rendered line; in particular a debug call under minimum `info` writes
nothing, and an error call writes one line whenever the minimum severity is
at most error's. -/
theorem claim_C8 : ∀ cfg lvl, cfg ∈ levelNames → lvl ∈ levelNames →
    ((sev lvl < sev cfg → logWrites cfg lvl = 0) ∧
     (sev cfg ≤ sev lvl → logWrites cfg lvl = 1)) ∧
    logWrites "info" "debug" = 0 ∧
    (∀ c, c ∈ levelNames → sev c ≤ sev "error" → logWrites c "error" = 1) := by
  intro cfg lvl hc hl
  refine ⟨?_, by decide, ?_⟩
  · fin_cases hc <;> fin_cases hl <;> exact ⟨by decide, by decide⟩
  · intro c hcm
    fin_cases hcm <;> decide

/-- Witness for C8 at minimum `info`. -/
theorem claim_C8_wit :
    logWrites "info" "debug" = 0 ∧ logWrites "info" "error" = 1 := by
  have h := claim_C8 "info" "error" (by decide) (by decide)
  exact ⟨h.2.1, h.1.2 (by decide)⟩

/-- Claim C10: when the configured LOG_LEVEL is any string other than the six
level names, `supports` is false for every level, so every logging call —
including error and fatal — writes nothing at all. -/
theorem claim_C10 : ∀ cfg, cfg ∉ levelNames → ∀ lvl,
    supports cfg lvl = false ∧ logWrites cfg lvl = 0 := by
  intro cfg h lvl
  have hnone : getProp levels cfg = none := by
    simp only [levelNames, List.mem_cons, List.not_mem_nil, or_false, not_or] at h
    obtain ⟨h1, h2, h3, h4, h5, h6⟩ := h
    have e1 : ("trace" == cfg) = false := beq_eq_false_iff_ne.mpr (fun he => h1 he.symm)
    have e2 : ("debug" == cfg) = false := beq_eq_false_iff_ne.mpr (fun he => h2 he.symm)
    have e3 : ("info" == cfg) = false := beq_eq_false_iff_ne.mpr (fun he => h3 he.symm)
    have e4 : ("warn" == cfg) = false := beq_eq_false_iff_ne.mpr (fun he => h4 he.symm)
    have e5 : ("error" == cfg) = false := beq_eq_false_iff_ne.mpr (fun he => h5 he.symm)
    have e6 : ("fatal" == cfg) = false := beq_eq_false_iff_ne.mpr (fun he => h6 he.symm)
    simp [levels, getProp, e1, e2, e3, e4, e5, e6]
  constructor
  · simp [supports, hnone]
  · simp [logWrites, supports, hnone]

/-- Witness for C10 with the unknown name `verbose`. -/
theorem claim_C10_wit :
    supports "verbose" "error" = false ∧ logWrites "verbose" "error" = 0 :=
  claim_C10 "verbose" (by decide) "error"

/-! ## Claims about the splitters -/

/-- Claim C5 counterexample: on the input `/a\/b` the template splitter keeps
the escaped slash inside one segment while the request splitter splits on it,
so the two splitters are not equivalent on every input string. -/
theorem claim_C5_cex :
    ¬ (splitTemplate "/a\\/b" = splitPath "/a\\/b") := by decide

/-- Claim C5 (amended): on every input string with no backslash immediately
followed by a slash, the request-path splitter and the template splitter
return the same raw segment list; they differ exactly on escaped `\/`, which
only the template splitter refuses to split. -/
theorem claim_C5 (s : String) (h : hasEscSlash s.data = false) :
    splitTemplate s = splitPath s := by
  unfold splitTemplate splitPath
  rw [foldl_stepT_eq_stepP s.data ⟨[], none⟩ h
    (fun hEB => absurd hEB (by decide))]

/-- Witness for C5 on the escape-free input `/a/b`. -/
theorem claim_C5_wit :
    hasEscSlash "/a/b".data = false ∧ splitTemplate "/a/b" = splitPath "/a/b" :=
  ⟨by decide, claim_C5 "/a/b" (by decide)⟩

/-! ## Claims about the dispatcher -/

/-- Claim C1: for every route tree, request method and request path — when
the walk ends having reached no handler set the fallback responds 404 with
body `Not found.`; when a handler set was reached but holds neither the
lowercased method nor `*` the fallback responds 406 with body
`Method not allowed.`; otherwise the handler under the lowercased method is
selected, falling back to the `*` handler when the exact method is absent. -/
theorem claim_C1 {H : Type} (eng : Engine) (root : Node H)
    (method pathname : String) (r : Response) :
    ((dispatch eng root method pathname).handlers = none →
      (dispatch eng root method pathname).selected = Selected.fallback none ∧
      fallbackRespond (none : Option (RouteVal H)) r =
        { r with statusCode := 404, body := "Not found." }) ∧
    (∀ hv, (dispatch eng root method pathname).handlers = some hv →
      lookupMethod hv (jsToLower method) = none → lookupMethod hv "*" = none →
      (dispatch eng root method pathname).selected = Selected.fallback (some hv) ∧
      fallbackRespond (some hv) r =
        { r with statusCode := 406, body := "Method not allowed." }) ∧
    (∀ hv h, (dispatch eng root method pathname).handlers = some hv →
      lookupMethod hv (jsToLower method) = some h →
      (dispatch eng root method pathname).selected = Selected.user h) ∧
    (∀ hv h, (dispatch eng root method pathname).handlers = some hv →
      lookupMethod hv (jsToLower method) = none → lookupMethod hv "*" = some h →
      (dispatch eng root method pathname).selected = Selected.user h) := by
  have hsel : (dispatch eng root method pathname).selected
      = selectHandler (dispatch eng root method pathname).handlers method := rfl
  refine ⟨?_, ?_, ?_, ?_⟩
  · intro h0
    rw [hsel, h0]
    exact ⟨rfl, rfl⟩
  · intro hv h0 hm hw
    rw [hsel, h0]
    refine ⟨?_, rfl⟩
    simp [selectHandler, hm, hw]
  · intro hv h h0 hm
    rw [hsel, h0]
    simp [selectHandler, hm]
  · intro hv h h0 hm hw
    rw [hsel, h0]
    simp [selectHandler, hm, hw]

/-- Witness for C1: the empty tree reaches no handler set on `/x` and the
fallback produces the 404 response. -/
theorem claim_C1_wit :
    (dispatch engAll (emptyNode : Node Nat) "GET" "/x").selected =
      Selected.fallback none ∧
    fallbackRespond (none : Option (RouteVal Nat)) freshResponse =
      ⟨404, "Not found."⟩ :=
  (claim_C1 engAll (emptyNode : Node Nat) "GET" "/x" freshResponse).1 rfl

/-- Claim C2: whenever no child of the current node matches the current
segment and the walk has not been marked complete, the entire match list is
discarded and the walk ends with an empty match list and no handler;
concretely, with sibling edges `/a/{x}` and `/a/b/c` in either insertion
order, a request for `/a/b/d` fails entirely with 404. -/
theorem claim_C2 :
    (∀ (H : Type) (eng : Engine) (root : Node H) (st : WalkState H) (i : Nat)
        (seg : String) (rest : List String),
      tryChildren eng st.routes.entries seg (String.join (seg :: rest)) = none →
      st.fullMatch = false →
      st.matchList.length ≤ i →
      walk eng root st i (seg :: rest) =
        { st with matchList := [], routes := root, routeKey := some "",
                  handlers := none }) ∧
    (createRouteTreeMap engAll sibRoutesA "" = (sibTreeA, []) ∧
     (dispatch engAll sibTreeA "GET" "/a/b/d").matchList = [] ∧
     (dispatch engAll sibTreeA "GET" "/a/b/d").handlers = none ∧
     (dispatch engAll sibTreeA "GET" "/a/b/d").selected = Selected.fallback none ∧
     fallbackRespond (dispatch engAll sibTreeA "GET" "/a/b/d").handlers
       freshResponse = ⟨404, "Not found."⟩) ∧
    (createRouteTreeMap engAll sibRoutesB "" = (sibTreeB, []) ∧
     (dispatch engAll sibTreeB "GET" "/a/b/d").matchList = [] ∧
     (dispatch engAll sibTreeB "GET" "/a/b/d").handlers = none ∧
     (dispatch engAll sibTreeB "GET" "/a/b/d").selected = Selected.fallback none ∧
     fallbackRespond (dispatch engAll sibTreeB "GET" "/a/b/d").handlers
       freshResponse = ⟨404, "Not found."⟩) := by
  refine ⟨?_, ?_, ?_⟩
  · intro H eng root st i seg rest htc hfm hlen
    have hlt : st.matchList.length < i + 1 := Nat.lt_succ_of_le hlen
    simp only [walk]
    rw [htc]
    simp [hfm, hlt]
  · exact ⟨sibTreeA_built, rfl, rfl, rfl, rfl⟩
  · exact ⟨sibTreeB_built, rfl, rfl, rfl, rfl⟩

/-- Witness for C2's discard statement at a concrete node with no children. -/
theorem claim_C2_wit :
    walk engAll (emptyNode : Node Nat) ⟨emptyNode, none, some "", [], false⟩ 0
      ["/"] = ⟨emptyNode, none, some "", [], false⟩ :=
  claim_C2.1 Nat engAll emptyNode ⟨emptyNode, none, some "", [], false⟩ 0 "/" []
    rfl rfl (by decide)

/-- Shape of a successful first match: the matched edge was compared either
as a literal string against its subject, or through `exec`, with the subject
determined by the matched child's own `matchToEnd` option. -/
theorem tryChildren_some {H : Type} (eng : Engine) :
    ∀ (entries : List (RouteKey × Node H)) (seg rem : String) (k : RouteKey)
      (m : MatchRec) (v : Node H),
    tryChildren eng entries seg rem = some (k, m, v) →
    ((v.options.matchString = true ∧ ∃ s, k = RouteKey.str s ∧
        m = ⟨s, none, if v.options.matchToEnd then rem else seg⟩) ∨
     (v.options.matchString = false ∧
        execKey eng k (if v.options.matchToEnd then rem else seg) = some m)) := by
  intro entries
  induction entries with
  | nil =>
      intro seg rem k m v h
      exact absurd h (by simp [tryChildren])
  | cons e es ih =>
      intro seg rem k m v h
      obtain ⟨k0, v0⟩ := e
      simp only [tryChildren] at h
      split at h
      next m0 heq =>
        have h3 : k = k0 ∧ m = m0 ∧ v = v0 := by
          simp only [Option.some.injEq, Prod.mk.injEq] at h
          exact ⟨h.1.symm, h.2.1.symm, h.2.2.symm⟩
        obtain ⟨hk, hm, hv⟩ := h3
        subst hk
        subst hm
        subst hv
        by_cases hms : v.options.matchString = true
        · rw [if_pos hms] at heq
          cases k with
          | str s =>
              have heq' :
                  (if ((if v.options.matchToEnd then rem else seg) == s) = true
                    then some (⟨s, none,
                      if v.options.matchToEnd then rem else seg⟩ : MatchRec)
                    else none) = some m := heq
              by_cases hse : ((if v.options.matchToEnd then rem else seg) == s) = true
              · rw [if_pos hse] at heq'
                injection heq' with heq'
                exact Or.inl ⟨hms, s, rfl, heq'.symm⟩
              · rw [if_neg hse] at heq'
                exact absurd heq' (by simp)
          | re r => exact absurd heq (by simp)
        · rw [if_neg hms] at heq
          exact Or.inr ⟨eq_false_of_ne_true hms, heq⟩
      next heq => exact ih seg rem k m v h

/-- Evaluating `execKey` on a fresh template edge: the outer key match and
the `ok` binding reduce definitionally. -/
theorem execKey_tmpl (eng : Engine) (name : String) (ex : Option String)
    (s : String) :
    execKey eng (RouteKey.re (CompiledRe.tmpl name ex)) s =
      (if (match ex with
           | none => !(s == "") && s.data.all jsDot
           | some e => eng.fullMatch e s) then
        some ⟨s, some [(name, s)], s⟩ else none) := rfl

/-- Claim C3 counterexample: in the tree built from the single route
`/a/{x*}/b` the splat edge matches the rejoined remainder `foo/b` of the
request `/a/foo/b` (fourth record, capture `x = foo/b`) and marks the walk
complete, yet two further match records are appended for the remaining
segments and the handler under the splat node's children is selected — so
"no further edges are tried past that node and no further match records are
appended" fails on this route and path. -/
theorem claim_C3_cex :
    createRouteTreeMap engAll splatRoutes "" = (splatTree, []) ∧
    (dispatch engAll splatTree "GET" "/a/foo/b").matchList =
      [⟨"/", none, "/"⟩, ⟨"a", none, "a"⟩, ⟨"/", none, "/"⟩,
       ⟨"foo/b", some [("x", "foo/b")], "foo/b"⟩,
       ⟨"/", none, "/"⟩, ⟨"b", none, "b"⟩] ∧
    (dispatch engAll splatTree "GET" "/a/foo/b").selected = Selected.user 7 :=
  ⟨splatTree_built, rfl, rfl⟩

/-- Claim C3 (amended): when the first matching child is a splat template
edge (its options say `matchToEnd`), the match subject is the entire
remainder of the path from this position rejoined into one string, that
remainder is captured under the template's name, and the walk is marked
complete, which disables the discard check for the rest of the walk; the
remaining segments are however still scanned against the matched node's own
child edges and can append further match records; when the matched node has
no child edges, no further records are appended. -/
theorem claim_C3 :
    (∀ (H : Type) (eng : Engine) (entries : List (RouteKey × Node H))
        (seg : String) (rest : List String) (name : String)
        (ex : Option String) (m : MatchRec) (v : Node H),
      tryChildren eng entries seg (String.join (seg :: rest)) =
          some (RouteKey.re (CompiledRe.tmpl name ex), m, v) →
      v.options.matchToEnd = true →
      m = ⟨String.join (seg :: rest),
           some [(name, String.join (seg :: rest))],
           String.join (seg :: rest)⟩) ∧
    (∀ (H : Type) (eng : Engine) (root : Node H) (st : WalkState H) (i : Nat)
        (seg : String) (rest : List String) (k : RouteKey) (m : MatchRec)
        (v : Node H),
      tryChildren eng st.routes.entries seg (String.join (seg :: rest)) =
          some (k, m, v) →
      v.options.matchToEnd = true →
      walk eng root st i (seg :: rest) =
        walk eng root ⟨v, v.handlers, v.routeKey, st.matchList ++ [m], true⟩
          (i + 1) rest) ∧
    (∀ (H : Type) (eng : Engine) (root : Node H) (st : WalkState H) (i : Nat)
        (segs : List String),
      st.fullMatch = true → st.routes.entries = [] →
      walk eng root st i segs = st) := by
  refine ⟨?_, ?_, ?_⟩
  · intro H eng entries seg rest name ex m v htc hmte
    rcases tryChildren_some eng entries seg (String.join (seg :: rest))
        (RouteKey.re (CompiledRe.tmpl name ex)) m v htc with
      ⟨_, s, hks, _⟩ | ⟨_, hexec⟩
    · exact absurd hks (by simp)
    · rw [hmte, if_pos rfl, execKey_tmpl] at hexec
      split at hexec
      · injection hexec with hexec
        exact hexec.symm
      · exact absurd hexec (by simp)
  · intro H eng root st i seg rest k m v htc hmte
    simp only [walk]
    rw [htc]
    simp [hmte]
  · intro H eng root st i segs hfm
    induction segs generalizing i with
    | nil => intro _; rfl
    | cons seg rest ih =>
        intro hent
        unfold walk
        rw [hent]
        simp only [tryChildren, hfm, Bool.not_true, Bool.false_and,
          Bool.false_eq_true, if_false]
        exact ih (i + 1) hent

/-- Witness for C3 at concrete inputs: a splat edge matching `foo/b`,
its walk step, and the fixpoint at a childless complete state. -/
theorem claim_C3_wit :
    ((⟨"foo/b", some [("x", "foo/b")], "foo/b"⟩ : MatchRec) =
      ⟨String.join ("foo" :: ["/", "b"]),
       some [("x", String.join ("foo" :: ["/", "b"]))],
       String.join ("foo" :: ["/", "b"])⟩) ∧
    walk engAll (emptyNode : Node Nat)
        ⟨emptyNode, some (RouteVal.handlers [("get", 1)]), none, [], true⟩ 0
        ["/", "x"] =
      ⟨emptyNode, some (RouteVal.handlers [("get", 1)]), none, [], true⟩ := by
  constructor
  · exact claim_C3.1 Nat engAll
      [(RouteKey.re (CompiledRe.tmpl "x" none), Node.mk [] none none ⟨true, false⟩)]
      "foo" ["/", "b"] "x" none _ _ rfl rfl
  · exact claim_C3.2.2 Nat engAll emptyNode
      ⟨emptyNode, some (RouteVal.handlers [("get", 1)]), none, [], true⟩ 0
      ["/", "x"] rfl rfl

/-- Claim C6 counterexample: with the route `/x/{name}`, the request path
`/x/a%0Ab` decodes to the non-empty segment `a\nb` at the template's
position, yet the walk reaches no handler set and falls back to 404, because
the default pattern `.+` does not match a line terminator — so "any single
non-empty decoded path segment matches" fails. -/
theorem claim_C6_cex :
    createRouteTreeMap eng6 nameRoutes "" = (nameTree, []) ∧
    ((splitPath "/x/a%0Ab").map eng6.decode = ["/", "x", "/", "a\nb"]) ∧
    ¬ ("a\nb" = "") ∧
    (dispatch eng6 nameTree "GET" "/x/a%0Ab").handlers = none ∧
    (dispatch eng6 nameTree "GET" "/x/a%0Ab").matchList = [] ∧
    (dispatch eng6 nameTree "GET" "/x/a%0Ab").selected = Selected.fallback none :=
  ⟨nameTree_built, by decide, by decide, rfl, rfl, rfl⟩

/-- Claim C6 (amended): an unconstrained `{name}` edge matches a single
decoded segment exactly when it is non-empty and free of line-terminator
characters, capturing its full text verbatim under the name; an empty
segment does not match, and neither does a segment containing a line
terminator. -/
theorem claim_C6 :
    (∀ (eng : Engine) (name s : String),
      execKey eng (RouteKey.re (CompiledRe.tmpl name none)) s =
        (if !(s == "") && s.data.all jsDot then
          some ⟨s, some [(name, s)], s⟩ else none)) ∧
    (∀ (H : Type) (eng : Engine) (root : Node H) (st : WalkState H) (i : Nat)
        (s : String) (rest : List String) (name : String) (v : Node H),
      st.routes.entries = [(RouteKey.re (CompiledRe.tmpl name none), v)] →
      v.options = ⟨false, false⟩ →
      ¬ s = "" → s.data.all jsDot = true → i ≤ st.matchList.length →
      walk eng root st i (s :: rest) =
        walk eng root ⟨v, v.handlers, v.routeKey,
          st.matchList ++ [⟨s, some [(name, s)], s⟩], st.fullMatch⟩ (i + 1) rest) ∧
    (∀ (H : Type) (eng : Engine) (name : String) (v : Node H) (rem : String),
      v.options.matchToEnd = false →
      tryChildren eng [(RouteKey.re (CompiledRe.tmpl name none), v)] "" rem =
        none) := by
  refine ⟨?_, ?_, ?_⟩
  · intro eng name s
    rfl
  · intro H eng root st i s rest name v hent hopts hne hdot hlen
    have hbe : (s == "") = false := beq_eq_false_iff_ne.mpr hne
    have htc : tryChildren eng st.routes.entries s (String.join (s :: rest)) =
        some (RouteKey.re (CompiledRe.tmpl name none),
          ⟨s, some [(name, s)], s⟩, v) := by
      rw [hent]
      simp only [tryChildren, hopts]
      simp [execKey_tmpl, hbe, hdot]
    have hnd : ¬ (st.matchList.length + 1 < i + 1) := by omega
    simp only [walk]
    rw [htc]
    simp [hopts, hnd]
  · intro H eng name v rem hmte
    simp [tryChildren, hmte, execKey]

/-- Witness for C6 at a concrete matching segment. -/
theorem claim_C6_wit :
    walk engAll (emptyNode : Node Nat)
        ⟨Node.mk [(RouteKey.re (CompiledRe.tmpl "name" none),
            Node.mk [] (some (RouteVal.handlers [("get", 3)])) none ⟨false, false⟩)]
          none none ⟨false, false⟩, none, some "", [], false⟩ 0 ["mars"] =
      walk engAll (emptyNode : Node Nat)
        ⟨Node.mk [] (some (RouteVal.handlers [("get", 3)])) none ⟨false, false⟩,
          some (RouteVal.handlers [("get", 3)]), none,
          [⟨"mars", some [("name", "mars")], "mars"⟩], false⟩ 1 [] :=
  claim_C6.2.1 Nat engAll emptyNode _ 0 "mars" [] "name" _ rfl rfl
    (by decide) (by decide) (by decide)

/-- Claim C9 counterexample: invoking the handler wrapper for an HTTP/2
request whose session is not yet tracked grows the active-session set, so
"evaluating the dispatcher and invoking the returned handler wrapper leaves
the active-session set unchanged" fails. -/
theorem claim_C9_cex :
    (handleRequest engAll (emptyNode : Node Nat) "http2" ⟨"2.0", 1, 1, ""⟩
      "GET" "/" []).2 = [1] ∧
    ¬ (([1] : List Nat) = []) := ⟨rfl, by decide⟩

/-- Claim C9 (amended): evaluating the dispatcher leaves the active-session
set untouched (the routing result is computed without it), but invoking the
returned handler wrapper registers the request's transport session: an
HTTP/2 request's session — or, on an http2-protocol server, the socket of an
HTTP/1.1 keep-alive connection — is appended when absent and left alone when
present; for a plain HTTP/1.1 request on an http1.1-protocol server the set
is unchanged; removal happens only in the session's own close listener and
is idempotent. -/
theorem claim_C9 :
    (∀ (H : Type) (eng : Engine) (root : Node H) (protocol : String)
        (req : ReqInfo) (method pathname : String) (active : List Nat),
      (handleRequest eng root protocol req method pathname active).1 =
        dispatch eng root method pathname) ∧
    (∀ (H : Type) (eng : Engine) (root : Node H) (protocol : String)
        (req : ReqInfo) (method pathname : String) (active : List Nat),
      ¬ req.httpVersion = "2.0" → ¬ protocol = "http2" →
      (handleRequest eng root protocol req method pathname active).2 = active) ∧
    (∀ (H : Type) (eng : Engine) (root : Node H) (protocol : String)
        (req : ReqInfo) (method pathname : String) (active : List Nat),
      req.httpVersion = "2.0" → active.contains req.session = false →
      (handleRequest eng root protocol req method pathname active).2 =
        active ++ [req.session]) ∧
    (∀ (H : Type) (eng : Engine) (root : Node H) (protocol : String)
        (req : ReqInfo) (method pathname : String) (active : List Nat),
      req.httpVersion = "2.0" → active.contains req.session = true →
      (handleRequest eng root protocol req method pathname active).2 = active) ∧
    (∀ (H : Type) (eng : Engine) (root : Node H) (req : ReqInfo)
        (method pathname : String) (active : List Nat),
      ¬ req.httpVersion = "2.0" →
      jsToLower req.connectionHeader = "keep-alive" →
      active.contains req.socket = false →
      (handleRequest eng root "http2" req method pathname active).2 =
        active ++ [req.socket]) ∧
    (∀ (active : List Nat) (s : Nat),
      ¬ s ∈ sessionClosed active s ∧
      sessionClosed (sessionClosed active s) s = sessionClosed active s) := by
  refine ⟨fun _ _ _ _ _ _ _ _ => rfl, ?_, ?_, ?_, ?_, ?_⟩
  · intro H eng root protocol req method pathname active h2 hp
    have h2' : (req.httpVersion == "2.0") = false := beq_eq_false_iff_ne.mpr h2
    have hp' : (protocol == "http2") = false := beq_eq_false_iff_ne.mpr hp
    simp [handleRequest, trackSession, h2', hp']
  · intro H eng root protocol req method pathname active h2 hs
    have h2' : (req.httpVersion == "2.0") = true := beq_iff_eq.mpr h2
    have hs' : req.session ∉ active := by simpa using hs
    simp [handleRequest, trackSession, h2', hs']
  · intro H eng root protocol req method pathname active h2 hs
    have h2' : (req.httpVersion == "2.0") = true := beq_iff_eq.mpr h2
    have hs' : req.session ∈ active := by simpa using hs
    simp [handleRequest, trackSession, h2', hs']
  · intro H eng root req method pathname active h2 hka hs
    have h2' : (req.httpVersion == "2.0") = false := beq_eq_false_iff_ne.mpr h2
    have hka' : (jsToLower req.connectionHeader == "keep-alive") = true :=
      beq_iff_eq.mpr hka
    have hs' : req.socket ∉ active := by simpa using hs
    simp [handleRequest, trackSession, h2', hka', hs']
  · intro active s
    constructor
    · simp [sessionClosed, List.mem_filter]
    · simp [sessionClosed, List.filter_filter]

/-- Witness for C9: a plain HTTP/1.1 request on an http1.1 server leaves the
set unchanged. -/
theorem claim_C9_wit :
    (handleRequest engAll (emptyNode : Node Nat) "http1.1" ⟨"1.1", 1, 1, ""⟩
      "GET" "/" [5]).2 = [5] :=
  claim_C9.2.1 Nat engAll emptyNode "http1.1" ⟨"1.1", 1, 1, ""⟩ "GET" "/" [5]
    (by decide) (by decide)

/-- Claim C4 counter-evidence: building the single route `/a/{bad:[}` (whose
derived pattern `^(?<bad>[)$` fails to compile) emits exactly one warning
naming the path, but the route entry is NOT skipped entirely: the literal
prefix edges are created and the route's handler set is attached at the node
for `/a/` under the route key `/a/{bad:[}`, which then serves a GET of
`/a/` — the `continue` in the source skips only the offending segment. -/
theorem claim_C4 :
    createRouteTreeMap c4Eng c4Routes "" = (c4Tree, ["/a/\x7bbad:[\x7d"]) ∧
    (dispatch c4Eng c4Tree "GET" "/a/").handlers =
      some (RouteVal.handlers [("get", 5)]) ∧
    (dispatch c4Eng c4Tree "GET" "/a/").selected = Selected.user 5 ∧
    (dispatch c4Eng c4Tree "GET" "/a/").routeKey = some "/a/\x7bbad:[\x7d" :=
  ⟨c4Tree_built, rfl, rfl, rfl⟩

/-! ## Builder phase-ordering lemmas (for claim C7) -/

theorem regexPhase_append {H : Type} (eng : Engine) (pre : String) :
    ∀ (l1 l2 : List (RoutePattern × PreVal H)) (n : Node H)
      (s : List (String × PreVal H)) (w : List String),
    regexPhase eng pre (l1 ++ l2) n s w =
      regexPhase eng pre l2 (regexPhase eng pre l1 n s w).1
        (regexPhase eng pre l1 n s w).2.1 (regexPhase eng pre l1 n s w).2.2 := by
  intro l1
  induction l1 with
  | nil => intro l2 n s w; rfl
  | cons e t ih =>
      intro l2 n s w
      obtain ⟨p, pv⟩ := e
      cases p with
      | str k =>
          simp only [List.cons_append, regexPhase]
          exact ih l2 n (mapSet s k pv) w
      | regex src =>
          simp only [List.cons_append, regexPhase]
          by_cases ht : eng.rawTestEmpty src = true
          · rw [if_pos ht, if_pos ht]
            exact ih l2 _ s w
          · rw [if_neg ht, if_neg ht]
            exact ih l2 _ s _

theorem regexPhase_strs_indep {H : Type} (eng : Engine) (pre : String) :
    ∀ (l : List (RoutePattern × PreVal H)) (n : Node H)
      (s s' : List (String × PreVal H)) (w : List String),
    (regexPhase eng pre l n s w).1 = (regexPhase eng pre l n s' w).1 ∧
    (regexPhase eng pre l n s w).2.2 = (regexPhase eng pre l n s' w).2.2 := by
  intro l
  induction l with
  | nil => intro n s s' w; exact ⟨rfl, rfl⟩
  | cons e t ih =>
      intro n s s' w
      obtain ⟨p, pv⟩ := e
      cases p with
      | str k =>
          simp only [regexPhase]
          exact ih n (mapSet s k pv) (mapSet s' k pv) w
      | regex src =>
          simp only [regexPhase]
          by_cases ht : eng.rawTestEmpty src = true
          · rw [if_pos ht, if_pos ht]
            exact ih _ s s' w
          · rw [if_neg ht, if_neg ht]
            exact ih _ s s' _

theorem regexPhase_strs_allRe {H : Type} (eng : Engine) (pre : String) :
    ∀ (l : List (RoutePattern × PreVal H)),
    l.all (fun e => isReP e.1) = true →
    ∀ (n : Node H) (s : List (String × PreVal H)) (w : List String),
    (regexPhase eng pre l n s w).2.1 = s := by
  intro l
  induction l with
  | nil => intro _ n s w; rfl
  | cons e t ih =>
      intro hall n s w
      obtain ⟨p, pv⟩ := e
      simp only [List.all_cons, Bool.and_eq_true] at hall
      obtain ⟨hp, ht'⟩ := hall
      cases p with
      | str k => exact absurd hp (by simp [isReP])
      | regex src =>
          simp only [regexPhase]
          by_cases ht : eng.rawTestEmpty src = true
          · rw [if_pos ht]
            exact ih ht' _ s w
          · rw [if_neg ht]
            exact ih ht' _ s _

theorem filter_all {α : Type} (p : α → Bool) (l : List α) :
    (l.filter p).all p = true := by
  rw [List.all_eq_true]
  intro a ha
  exact List.of_mem_filter ha

theorem regexPhase_reorder {H : Type} (eng : Engine) (pre : String) :
    ∀ (l : List (RoutePattern × PreVal H)) (n : Node H)
      (s : List (String × PreVal H)) (w : List String),
    regexPhase eng pre l n s w =
      regexPhase eng pre
        (l.filter (fun e => isReP e.1) ++ l.filter (fun e => !isReP e.1))
        n s w := by
  intro l
  induction l with
  | nil => intro n s w; rfl
  | cons e t ih =>
      intro n s w
      obtain ⟨p, pv⟩ := e
      cases p with
      | regex src =>
          have hf1 : ((RoutePattern.regex src, pv) :: t).filter
                (fun e => isReP e.1)
              = (RoutePattern.regex src, pv) ::
                  t.filter (fun e => isReP e.1) := by
            simp [List.filter_cons, isReP]
          have hf2 : ((RoutePattern.regex src, pv) :: t).filter
                (fun e => !isReP e.1)
              = t.filter (fun e => !isReP e.1) := by
            simp [List.filter_cons, isReP]
          rw [hf1, hf2, List.cons_append]
          simp only [regexPhase]
          by_cases ht : eng.rawTestEmpty src = true
          · rw [if_pos ht, if_pos ht]
            exact ih _ s w
          · rw [if_neg ht, if_neg ht]
            exact ih _ s _
      | str k =>
          have hf1 : ((RoutePattern.str k, pv) :: t).filter (fun e => isReP e.1)
              = t.filter (fun e => isReP e.1) := by
            simp [List.filter_cons, isReP]
          have hf2 : ((RoutePattern.str k, pv) :: t).filter (fun e => !isReP e.1)
              = (RoutePattern.str k, pv) :: t.filter (fun e => !isReP e.1) := by
            simp [List.filter_cons, isReP]
          rw [hf1, hf2]
          simp only [regexPhase]
          rw [ih n (mapSet s k pv) w]
          rw [regexPhase_append eng pre (t.filter (fun e => isReP e.1))
            ((RoutePattern.str k, pv) :: t.filter (fun e => !isReP e.1)) n s w]
          rw [regexPhase_append eng pre (t.filter (fun e => isReP e.1))
            (t.filter (fun e => !isReP e.1)) n (mapSet s k pv) w]
          simp only [regexPhase]
          have hs1 := regexPhase_strs_allRe eng pre
            (t.filter (fun e => isReP e.1)) (filter_all _ t) n s w
          have hs2 := regexPhase_strs_allRe eng pre
            (t.filter (fun e => isReP e.1)) (filter_all _ t) n (mapSet s k pv) w
          have hiw := regexPhase_strs_indep eng pre
            (t.filter (fun e => isReP e.1)) n s (mapSet s k pv) w
          rw [hs1, hs2, hiw.1, hiw.2]

theorem precompile_append {H : Type} (eng : Engine) (pre : String) :
    ∀ (l1 l2 : List (RoutePattern × RouteVal H)),
    precompileEntries eng (l1 ++ l2) pre =
      precompileEntries eng l1 pre ++ precompileEntries eng l2 pre := by
  intro l1
  induction l1 with
  | nil =>
      intro l2
      simp only [List.nil_append, precompileEntries]
  | cons e t ih =>
      intro l2
      obtain ⟨p, v⟩ := e
      cases v with
      | handlers hs => simp only [List.cons_append, precompile_cons_handlers, ih]
      | nested m => simp only [List.cons_append, precompileEntries, ih]

theorem precompile_filter {H : Type} (eng : Engine) (pre : String)
    (q : RoutePattern → Bool) :
    ∀ (l : List (RoutePattern × RouteVal H)),
    precompileEntries eng (l.filter (fun e => q e.1)) pre =
      (precompileEntries eng l pre).filter (fun e => q e.1) := by
  intro l
  induction l with
  | nil => simp only [List.filter_nil, precompileEntries]
  | cons e t ih =>
      obtain ⟨p, v⟩ := e
      simp only [List.filter_cons]
      by_cases hq : q p = true
      · cases v with
        | handlers hs =>
            simp only [hq, if_true, precompile_cons_handlers, ih,
              List.filter_cons]
        | nested m =>
            simp only [hq, if_true, precompileEntries, ih, List.filter_cons]
      · cases v with
        | handlers hs =>
            simp only [eq_false_of_ne_true hq, Bool.false_eq_true, if_false,
              precompile_cons_handlers, ih, List.filter_cons]
        | nested m =>
            simp only [eq_false_of_ne_true hq, Bool.false_eq_true, if_false,
              precompileEntries, ih, List.filter_cons]

theorem precompile_filter_re {H : Type} (eng : Engine) (pre : String)
    (l : List (RoutePattern × RouteVal H)) :
    precompileEntries eng (l.filter (fun e => isReP e.1)) pre =
      (precompileEntries eng l pre).filter (fun e => isReP e.1) :=
  precompile_filter eng pre isReP l

theorem precompile_filter_notre {H : Type} (eng : Engine) (pre : String)
    (l : List (RoutePattern × RouteVal H)) :
    precompileEntries eng (l.filter (fun e => !isReP e.1)) pre =
      (precompileEntries eng l pre).filter (fun e => !isReP e.1) :=
  precompile_filter eng pre (fun p => !isReP p) l

/-- Claim C7: the builder processes all top-level `RegExp` keys before any
string keys (building from a definition equals building from the definition
with its regex entries moved, in order, in front of its string entries); a
`RegExp` key matching the empty string is attached as the current node's
direct handler set and creates no child edge; every other `RegExp` key
becomes a child edge whose match options are `matchToEnd = true` and
`matchString = false`. -/
theorem claim_C7 :
    (∀ (H : Type) (eng : Engine) (m : List (RoutePattern × RouteVal H))
        (pre : String),
      createRouteTreeMap eng m pre =
        createRouteTreeMap eng
          (m.filter (fun e => isReP e.1) ++ m.filter (fun e => !isReP e.1))
          pre) ∧
    (∀ (H : Type) (eng : Engine) (pre src : String) (pv : PreVal H)
        (rest : List (RoutePattern × PreVal H)) (node : Node H)
        (strs : List (String × PreVal H)) (warns : List String),
      eng.rawTestEmpty src = true →
      regexPhase eng pre ((RoutePattern.regex src, pv) :: rest) node strs warns =
        regexPhase eng pre rest (node.setHandlers (some pv.orig)) strs warns ∧
      (node.setHandlers (some pv.orig)).entries = node.entries) ∧
    (∀ (H : Type) (eng : Engine) (pre src : String) (pv : PreVal H)
        (rest : List (RoutePattern × PreVal H)) (node : Node H)
        (strs : List (String × PreVal H)) (warns : List String),
      ¬ eng.rawTestEmpty src = true →
      regexPhase eng pre ((RoutePattern.regex src, pv) :: rest) node strs warns =
        regexPhase eng pre rest
          (node.setEntries (node.entries ++
            [(RouteKey.re (CompiledRe.raw src), (rawChild pre src pv).1)]))
          strs (warns ++ (rawChild pre src pv).2) ∧
      (rawChild pre src pv).1.options = ⟨true, false⟩) := by
  refine ⟨?_, ?_, ?_⟩
  · intro H eng m pre
    unfold createRouteTreeMap
    rw [precompile_append eng pre, precompile_filter_re, precompile_filter_notre]
    unfold buildCore
    rw [← regexPhase_reorder eng pre (precompileEntries eng m pre) emptyNode [] []]
  · intro H eng pre src pv rest node strs warns ht
    constructor
    · simp only [regexPhase]
      rw [if_pos ht]
    · cases node with
      | mk e h k o => rfl
  · intro H eng pre src pv rest node strs warns ht
    constructor
    · simp only [regexPhase]
      rw [if_neg ht]
    · cases pv with
      | handlers hs => rfl
      | subtree o b ws => rfl

/-- Witness for C7 at concrete inputs: an empty-matching raw regex attaches
directly; a non-matching one becomes a `matchToEnd` edge. -/
theorem claim_C7_wit :
    (regexPhase engEmptyRe ""
        [(RoutePattern.regex "/e/", PreVal.handlers ([("get", 1)] : List (String × Nat)))]
        emptyNode [] [] =
      regexPhase engEmptyRe "" []
        (Node.setHandlers emptyNode
          (some (PreVal.orig (PreVal.handlers [("get", 1)])))) [] [] ∧
      (Node.setHandlers (emptyNode : Node Nat)
        (some (PreVal.orig (PreVal.handlers ([("get", 1)] : List (String × Nat)))))).entries =
        (emptyNode : Node Nat).entries) ∧
    (rawChild "" "/e/" (PreVal.handlers ([("get", 1)] : List (String × Nat)))).1.options =
      ⟨true, false⟩ :=
  ⟨claim_C7.2.1 Nat engEmptyRe "" "/e/" (PreVal.handlers [("get", 1)]) []
      emptyNode [] [] rfl,
   (claim_C7.2.2 Nat engAll "" "/e/" (PreVal.handlers [("get", 1)]) []
      emptyNode [] [] (by decide)).2⟩

end Srv
